import Mathlib

/-!
Shallow embedding of the `blender_senpai` completion orchestrator and its
collaborators, together with proofs about the properties the specification
states of them.

Embedded code:
* `src/blender_senpai/llm.py` — `_build_messages`, `completion_stream`
  (streaming accumulation of tool-call deltas, tool dispatch loop, second
  provider call);
* `extension/blender_senpai/llm.py` — the non-streaming tool-result
  computation of `completion`;
* `src/blender_senpai/utils.py` — `mainthreadify` / `execute_queued_functions`
  (the main-thread dispatcher queue);
* `src/blender_senpai/types/api_key.py` — `ApiKey`;
* `src/blender_senpai/tools.py` — the module-level tool registry
  (`_get_tools`, `tool_functions`).

Python dicts are embedded as insertion-ordered association lists, machine
JSON values as an inductive `Json`, exceptions as `Except String`, and the
external `json` codec as explicit `decode` / `encode` parameters.
-/

set_option autoImplicit false
set_option linter.unusedVariables false

namespace BlenderSenpai

/-- JSON values as handled by Python's `json` module (payloads of tool
results, tool parameter schemas, the context message). -/
inductive Json where
  | null
  | bool (b : Bool)
  | num (n : Int)
  | str (s : String)
  | arr (elems : List Json)
  | obj (fields : List (String × Json))
deriving Inhabited

/-! ## Tool-call delta accumulation (`completion_stream`, llm.py lines 162-193)

A streamed tool-call delta is a partial dict: keys that are absent from a
fragment are `none`.  The accumulator `collected_tool_calls` is a dict keyed
by the provider-assigned `index`; Python dicts preserve insertion order, so
it is embedded as an association list where insertion appends. -/

/-- The nested `function` part of a streamed tool-call delta. -/
structure FunctionDelta where
  name : Option String
  arguments : Option String
deriving DecidableEq

/-- One streamed tool-call delta (`tc_dict` after `_dump_tool_call_delta`). -/
structure ToolCallDelta where
  index : Option Nat
  id : Option String
  type : Option String
  function : Option FunctionDelta
deriving DecidableEq

/-- A fully accumulated entry of `collected_tool_calls`; the nested
`function` dict of the Python entry is flattened into the `name` and
`arguments` fields. -/
structure ToolCallEntry where
  id : String
  type : String
  name : String
  arguments : String
deriving DecidableEq

/-- `tc_dict.get("index", 0)`. -/
def deltaIndex (d : ToolCallDelta) : Nat :=
  d.index.getD 0

/-- The entry `setdefault` inserts on the first delta for an index
(llm.py lines 168-175). -/
def initEntry (d : ToolCallDelta) : ToolCallEntry :=
  { id := d.id.getD ""
    type := d.type.getD "function"
    name := ""
    arguments := "" }

/-- The in-place update a delta applies to its index's entry: `id` and
`type` overwrite when supplied, `function.name` and `function.arguments`
are appended (llm.py lines 177-193). -/
def updEntry (e : ToolCallEntry) (d : ToolCallDelta) : ToolCallEntry :=
  let e1 : ToolCallEntry :=
    match d.id with
    | some s => { e with id := s }
    | none => e
  let e2 : ToolCallEntry :=
    match d.type with
    | some s => { e1 with type := s }
    | none => e1
  match d.function with
  | some f =>
      { e2 with
        name := e2.name ++ f.name.getD ""
        arguments := e2.arguments ++ f.arguments.getD "" }
  | none => e2

/-- Dict lookup on the insertion-ordered association list. -/
def lookupEntry : List (Nat × ToolCallEntry) → Nat → Option ToolCallEntry
  | [], _ => none
  | (k, e) :: rest, i => if k = i then some e else lookupEntry rest i

/-- Dict update-in-place for a key that is already present. -/
def setEntry : List (Nat × ToolCallEntry) → Nat → ToolCallEntry → List (Nat × ToolCallEntry)
  | [], _, _ => []
  | (k, v) :: rest, i, e =>
      if k = i then (k, e) :: rest else (k, v) :: setEntry rest i e

/-- Merging one streamed tool-call delta into `collected_tool_calls`
(`setdefault` followed by the overwrite/append updates). -/
def mergeDelta (acc : List (Nat × ToolCallEntry)) (d : ToolCallDelta) :
    List (Nat × ToolCallEntry) :=
  match lookupEntry acc (deltaIndex d) with
  | some e => setEntry acc (deltaIndex d) (updEntry e d)
  | none => acc ++ [(deltaIndex d, updEntry (initEntry d) d)]

/-- The whole-stream accumulator: fold `mergeDelta` over the deltas in
arrival order, starting from the empty dict. -/
def accumulate (ds : List ToolCallDelta) : List (Nat × ToolCallEntry) :=
  ds.foldl mergeDelta []

/-- The `function.name` substring a fragment contributes (empty when the
fragment carries no `function` part). -/
def fragName (d : ToolCallDelta) : String :=
  match d.function with
  | some f => f.name.getD ""
  | none => ""

/-- The `function.arguments` substring a fragment contributes. -/
def fragArguments (d : ToolCallDelta) : String :=
  match d.function with
  | some f => f.arguments.getD ""
  | none => ""

/-- The value supplied by the last fragment that supplied one, with a
default for when no fragment ever supplied the field. -/
def lastProvided (f : ToolCallDelta → Option String) (dflt : String)
    (ds : List ToolCallDelta) : String :=
  ((ds.filterMap f).getLast?).getD dflt

/-- The specification-side description of a reconstructed tool call, built
directly from the fragment list: `name`/`arguments` are the concatenation
of the fragments' substrings in arrival order, `id`/`type` take the value
of the last fragment that supplied them. -/
def specEntry (ds : List ToolCallDelta) : ToolCallEntry :=
  { id := lastProvided (fun d => d.id) "" ds
    type := lastProvided (fun d => d.type) "function" ds
    name := String.join (ds.map fragName)
    arguments := String.join (ds.map fragArguments) }

/-! ## Messages and request building (`_build_messages`, llm.py lines 60-116) -/

/-- One element of a structured (list-valued) message content.  History
images are nested one level deeper (`"image_url": {"url": ...}`) than
user-message images (`"image_url": ...`), exactly as in the source. -/
inductive ContentPart where
  | text (s : String)
  | imageUrlObj (url : String)
  | imageUrlStr (url : String)
deriving DecidableEq

/-- A message's `content` value: a plain string or a structured list. -/
inductive MsgContent where
  | str (s : String)
  | parts (ps : List ContentPart)
deriving DecidableEq

/-- One entry of the provider-bound message list.  `none` fields model
absent dict keys. -/
structure Message where
  role : String
  content : Option MsgContent := none
  tool_calls : Option (List ToolCallEntry) := none
  tool_call_id : Option String := none
  name : Option String := none
deriving DecidableEq

/-- The Gradio input message: `text` can be empty but never None. -/
structure GradioInputMessage where
  text : String
  files : List String
deriving DecidableEq

/-- A history message's content: a plain string, a tuple of file paths, or
anything else (in which case `_build_messages` emits no `content` key). -/
inductive HistoryContent where
  | str (s : String)
  | tup (items : List String)
  | other
deriving DecidableEq

/-- One Gradio history message (`metadata`/`options` are never read by the
embedded code and are omitted). -/
structure GradioHistoryMessage where
  role : String
  content : HistoryContent
deriving DecidableEq

/-- `SYSTEM_PROMPT` from system_prompt.py (fixed text; its exact wording is
irrelevant to every claim, only its identity and position matter). -/
def SYSTEM_PROMPT : String :=
  "\nYou are an assistant that helps beginners grow with Blender.\n\n- Humans do the modeling.\n- You can include images within your responses.\n\n## Examples\n\n### 1\n\nTo adjust an object\x27s position, select the object ![object icon](https://xhiroga.github.io/blender-mcp-senpai/assets/icons/object.png) from the Properties editor and modify the X, Y, Z values under Location.\n\n### 2\n\nTo create an animation, switch your workspace to Animation.\n\n![Workspaces](https://docs.blender.org/manual/en/latest/_images/interface_window-system_topbar_workspaces.png)\n\n### 3\n\nTo adjust the frame rate, select Output ![output icon](https://xhiroga.github.io/blender-mcp-senpai/assets/icons/output.png).\n"

/-- `"data:image/jpeg;base64," + base64.b64encode(<file bytes>)`; reading a
file and base64-encoding its bytes is the external effect `b64`. -/
def b64ImageUrl (b64 : String → String) (path : String) : String :=
  "data:image/jpeg;base64," ++ b64 path

/-- The history-translation loop of `_build_messages` (llm.py lines 77-99):
string content is kept; tuple content keeps only the elements that look
like file paths (start with "/"), each turned into an image part; any
other content shape produces a message without a `content` key. -/
def translateHistoryMessage (b64 : String → String) (m : GradioHistoryMessage) :
    Message :=
  match m.content with
  | .str s => { role := m.role, content := some (.str s) }
  | .tup items =>
      { role := m.role
        content := some (.parts (items.filterMap fun c =>
          if c.startsWith "/" then some (.imageUrlObj (b64ImageUrl b64 c)) else none)) }
  | .other => { role := m.role, content := none }

/-- The structured content of the new user message (llm.py lines 101-113):
the text part only when the text is nonempty, then one image part per
attached file. -/
def userContentParts (b64 : String → String) (um : GradioInputMessage) :
    List ContentPart :=
  (if um.text = "" then [] else [ContentPart.text um.text])
    ++ um.files.map (fun f => ContentPart.imageUrlStr (b64ImageUrl b64 f))

/-- `_build_messages` (llm.py lines 60-116): fixed system prompt, language
hint, translated history, then the new user message appended last. -/
def _build_messages (b64 : String → String) (model : String)
    (user_message : GradioInputMessage) (history : List GradioHistoryMessage)
    (lang : String) : List Message :=
  ([{ role := "system", content := some (.str SYSTEM_PROMPT) },
    { role := "system", content := some (.str ("Language: " ++ lang)) }]
    ++ history.map (translateHistoryMessage b64))
    ++ [{ role := "user", content := some (.parts (userContentParts b64 user_message)) }]

/-! ## The completion orchestrator (`completion_stream`, llm.py lines 119-252)

The provider streams and the external `json` codec are parameters: the
first and second streams are the chunk lists the two `litellm.acompletion`
calls would yield, `decode`/`encode` are `json.loads`/`json.dumps`, and
`tool_functions` is `tool_functions.get`.  Exceptions are `Except.error`
carrying `str(exception)`. -/

/-- One streamed chunk's delta (`chunk["choices"][0]["delta"]`). -/
structure Delta where
  content : Option String
  tool_calls : Option (List ToolCallDelta)
deriving DecidableEq

/-- The loop state of the first-stream consumption (llm.py lines 148-193):
`collected_content`, `collected_tool_calls`, and the tokens yielded to the
caller so far. -/
structure FirstPassState where
  collected_content : List String
  collected_tool_calls : List (Nat × ToolCallEntry)
  yielded : List String
deriving DecidableEq

/-- Processing of one first-stream chunk (llm.py lines 153-193): a content
delta is collected and immediately yielded; tool-call deltas are merged
into the per-index accumulator. -/
def processChunk (st : FirstPassState) (c : Delta) : FirstPassState :=
  let st1 : FirstPassState :=
    match c.content with
    | some token =>
        { st with
          collected_content := st.collected_content ++ [token]
          yielded := st.yielded ++ [token] }
    | none => st
  match c.tool_calls with
  | some tcs =>
      { st1 with collected_tool_calls := tcs.foldl mergeDelta st1.collected_tool_calls }
  | none => st1

/-- A registered tool callable: keyword arguments in, and either a
JSON-serializable result or a raised exception (`Except.error` carries
`str(exception)`). -/
abbrev ToolFun := List (String × Json) → Except String Json

/-- `json.loads(arguments_json or "{}")` with the `JSONDecodeError` handler
that falls back to `{}` (llm.py lines 216-221). -/
def parseArguments (decode : String → Option (List (String × Json)))
    (arguments_json : String) : List (String × Json) :=
  (decode (if arguments_json = "" then "\x7b\x7d" else arguments_json)).getD []

/-- The tool-role message appended after a tool call runs (llm.py lines
230-237): it carries the call's id and function name, and the JSON dump of
the tool result. -/
def toolMessage (encode : Json → String) (tc : ToolCallEntry) (tool_result : Json) :
    Message :=
  { role := "tool"
    content := some (.str (encode tool_result))
    tool_call_id := some tc.id
    name := some tc.name }

/-- The tool-execution loop of `completion_stream` (llm.py lines 209-237):
unknown tools are skipped with a warning; arguments are decoded with the
`{}` fallback; the tool is invoked with NO surrounding try/except, so a
raised exception propagates and aborts the loop; a normal result is
appended as a tool-role message and the loop continues. -/
def execToolCalls (decode : String → Option (List (String × Json)))
    (encode : Json → String) (tool_functions : String → Option ToolFun) :
    List Message → List ToolCallEntry → Except String (List Message)
  | msgs, [] => .ok msgs
  | msgs, tc :: rest =>
    match tool_functions tc.name with
    | none => execToolCalls decode encode tool_functions msgs rest
    | some f =>
      match f (parseArguments decode tc.arguments) with
      | .error e => .error e
      | .ok tool_result =>
          execToolCalls decode encode tool_functions
            (msgs ++ [toolMessage encode tc tool_result]) rest

/-- Observable outcome of one `completion_stream` run: the tokens yielded
to the caller, the final message list, and how many times
`litellm.acompletion` was invoked. -/
structure RunResult where
  yielded : List String
  messages : List Message
  acompletion_calls : Nat
deriving DecidableEq

/-- The context system message `completion_stream` appends after
`_build_messages` (llm.py lines 130-135): `json.dumps({"context": ctx})`
where `ctx` is the awaited `get_context()` host-state result. -/
def contextMessage (encode : Json → String) (ctx : Json) : Message :=
  { role := "system", content := some (.str (encode (Json.obj [("context", ctx)]))) }

/-- The message list sent to the FIRST provider call (llm.py lines
128-146): the `_build_messages` output with the context system message
appended after it — i.e. after the user message. -/
def firstRequestMessages (b64 : String → String) (encode : Json → String)
    (model : String) (user_message : GradioInputMessage)
    (history : List GradioHistoryMessage) (lang : String) (ctx : Json) :
    List Message :=
  _build_messages b64 model user_message history lang ++ [contextMessage encode ctx]

/-- `completion_stream` (llm.py lines 119-252), with the two provider
streams supplied as chunk lists.  The first call always happens
(`acompletion_calls` counts it); when no tool calls were accumulated the
function returns after appending the reconstructed assistant message; the
second call happens only on the tool path. -/
def completion_stream (b64 : String → String)
    (decode : String → Option (List (String × Json))) (encode : Json → String)
    (tool_functions : String → Option ToolFun) (model : String)
    (user_message : GradioInputMessage) (history : List GradioHistoryMessage)
    (lang : String) (ctx : Json) (firstChunks secondChunks : List Delta) :
    Except String RunResult :=
  let messages := firstRequestMessages b64 encode model user_message history lang ctx
  let st := firstChunks.foldl processChunk ⟨[], [], []⟩
  let assistant_content : Option MsgContent :=
    if st.collected_content = [] then none
    else some (.str (String.join st.collected_content))
  if st.collected_tool_calls = [] then
    .ok { yielded := st.yielded
          messages := messages
            ++ [{ role := "assistant", content := assistant_content }]
          acompletion_calls := 1 }
  else
    let tool_calls := st.collected_tool_calls.map Prod.snd
    let messages := messages
      ++ [{ role := "assistant", content := assistant_content,
            tool_calls := some tool_calls }]
    match execToolCalls decode encode tool_functions messages tool_calls with
    | .error e => .error e
    | .ok messages2 =>
        .ok { yielded := st.yielded ++ secondChunks.filterMap (fun c => c.content)
              messages := messages2
              acompletion_calls := 2 }

/-! ## The extension's non-streaming tool loop
(extension/blender_senpai/llm.py, `completion`, lines 110-166) -/

/-- The per-call tool result of the extension's `completion` (lines
121-141): a missing registry entry or a raised exception are both
converted into an error-status ToolResult instead of escaping. -/
def ext_tool_result (decode : String → Option (List (String × Json)))
    (tool_functions : String → Option ToolFun) (tc : ToolCallEntry) : Json :=
  match tool_functions tc.name with
  | none =>
      Json.obj [("status", .str "error"),
                ("payload", .str ("Unknown tool: " ++ tc.name))]
  | some f =>
    match f (parseArguments decode tc.arguments) with
    | .ok r => r
    | .error e => Json.obj [("status", .str "error"), ("payload", .str e)]

/-- The extension's sequential tool loop: one tool-role message is appended
per call, in order, and the loop is total — no exception aborts it. -/
def execToolCallsExt (decode : String → Option (List (String × Json)))
    (encode : Json → String) (tool_functions : String → Option ToolFun) :
    List Message → List ToolCallEntry → List Message
  | msgs, [] => msgs
  | msgs, tc :: rest =>
      execToolCallsExt decode encode tool_functions
        (msgs ++ [toolMessage encode tc (ext_tool_result decode tool_functions tc)]) rest

/-! ## Main-thread dispatcher (utils.py) -/

/-- A `concurrent.futures.Future` as the queued closure can leave it:
untouched, or resolved with the callable's return value. -/
inductive FutureState where
  | pending
  | resolved (v : Json)

/-- One queued unit of work: the wrapped function and the call's
arguments, captured by the closure `mainthreadify` enqueues. -/
structure QueueItem where
  func : List (String × Json) → Except String Json
  args : List (String × Json)

/-- The closure `mainthreadify` puts on `execution_queue` (utils.py lines
56-59): `lambda: conc_future.set_result(function(*args, **kwargs))`.  The
function call is evaluated first; only a normal return reaches
`set_result`, while a raised exception escapes the closure unhandled and
leaves the future pending. -/
def queuedClosure (item : QueueItem) : Except String FutureState :=
  match item.func item.args with
  | .ok v => .ok (FutureState.resolved v)
  | .error e => .error e

/-- `execute_queued_functions` (utils.py lines 18-24): the host tick drains
the queue in FIFO order, calling each closure with no exception handler,
so an exception escaping a closure propagates out of the tick itself. -/
def execute_queued_functions : List QueueItem → Except String (List FutureState)
  | [] => .ok []
  | item :: rest =>
    match queuedClosure item with
    | .ok fut => (execute_queued_functions rest).map (fun l => fut :: l)
    | .error e => .error e

/-! ## ApiKey (types/api_key.py) -/

def _VISIBLE_CHARS_HEAD : Nat := 3

def _MASK_CHAR : Char := '*'

/-- `ApiKey`, a string subclass; `value` is the underlying string. -/
structure ApiKey where
  value : String
deriving DecidableEq

/-- `_masked` (api_key.py lines 16-21): strings of length at most 3 are
returned unchanged; longer ones keep the first 3 characters and replace
the rest with `*`. -/
def ApiKey.masked (k : ApiKey) : String :=
  if k.value.length ≤ _VISIBLE_CHARS_HEAD then k.value
  else
    String.mk (k.value.data.take _VISIBLE_CHARS_HEAD
      ++ List.replicate (k.value.length - _VISIBLE_CHARS_HEAD) _MASK_CHAR)

/-- `__str__`. -/
def ApiKey.str (k : ApiKey) : String :=
  k.masked

/-- `__repr__ = __str__`. -/
def ApiKey.repr (k : ApiKey) : String :=
  k.str

/-- `reveal` returns the raw underlying string. -/
def ApiKey.reveal (k : ApiKey) : String :=
  k.value

/-- `__format__`: the `"raw"` format spec reveals, anything else masks. -/
def ApiKey.format (k : ApiKey) (format_spec : String) : String :=
  if format_spec = "raw" then k.reveal else k.masked

/-! ## tools.py module-level registry (`_get_tools` / `tool_functions`) -/

/-- The attributes of a module-level Python callable that the registry
scan reads: the `__is_tool__` marker, the `__parameters__` schema, and the
docstring. -/
structure PyCallable where
  is_tool : Bool
  parameters : Json
  doc : String

/-- A plain (unmarked) module function with the given docstring. -/
def pyFun (doc : String) : PyCallable :=
  { is_tool := false, parameters := Json.null, doc := doc }

/-- The `@tool` decorator (tools.py lines 25-35): the wrapper gets
`__is_tool__ = True` and `__parameters__ = parameters`; `functools.wraps`
keeps the docstring. -/
def tool (parameters : Json) (f : PyCallable) : PyCallable :=
  { f with is_tool := true, parameters := parameters }

/-- The `@mainthreadify()` decorator (utils.py lines 45-79): its wrapper is
built with `functools.wraps(function)`, which copies `__doc__` and the
wrapped function's `__dict__` — including `__is_tool__` and
`__parameters__` — onto the wrapper, so all registry-visible metadata is
preserved. -/
def mainthreadify (f : PyCallable) : PyCallable :=
  f

def execute_code : PyCallable :=
  mainthreadify (tool
    (Json.obj [("type", .str "object"),
      ("properties", .obj [("code", .obj
        [("type", .str "string"),
         ("description", .str "Execute the given Python code."),
         ("example", .str "bpy.ops.mesh.primitive_cube_add()")])]),
      ("required", .arr [.str "code"])])
    (pyFun "Execute the given Python code in Blender and return the standard output."))

def get_context : PyCallable :=
  mainthreadify (tool
    (Json.obj [("type", .str "object"), ("properties", .obj []),
      ("required", .arr [])])
    (pyFun "Get the current Blender context."))

def get_objects : PyCallable :=
  tool
    (Json.obj [("type", .str "object"), ("properties", .obj []),
      ("required", .arr [])])
    (pyFun "Get a list of objects in the current Blender scene.")

def get_object : PyCallable :=
  tool
    (Json.obj [("type", .str "object"),
      ("properties", .obj [("name", .obj
        [("type", .str "string"),
         ("description", .str "Object name (key in bpy.data.objects)"),
         ("example", .str "Cube")])]),
      ("required", .arr [.str "name"])])
    (pyFun "Get detailed information about the specified object.")

def modify_with_geometry_nodes : PyCallable :=
  mainthreadify (tool
    (Json.obj [("type", .str "object"),
      ("properties", .obj
        [("names", .obj
          [("type", .str "array"),
           ("items", .obj [("type", .str "string")]),
           ("description", .str "Object name (key in bpy.data.objects)"),
           ("example", .arr [.str "Cube", .str "Suzanne"])]),
         ("node_tree", .obj
          [("type", .str "string"),
           ("enum", .arr [.str "BLSP.Ngon"]),
           ("description", .str "Visualizer NodeTree to apply"),
           ("example", .str "BLSP.Ngon")])]),
      ("required", .arr [.str "names"])])
    (pyFun "Attach the specified Geometry Nodes visualizer to given objects.\n\nEach object in *names* receives a NODES modifier whose node_group is *node_tree*.\nRequired datablocks are auto-appended from assets/visualizer.blend."))

def import_file : PyCallable :=
  mainthreadify (tool
    (Json.obj [("type", .str "object"),
      ("properties", .obj [("file_path", .obj
        [("type", .str "string"),
         ("description", .str "Absolute path to the file to import"),
         ("example", .str "/path/to/model.glb")])]),
      ("required", .arr [.str "file_path"])])
    (pyFun "Import a 3D file and return the imported objects."))

/-- The function members of the tools.py module as
`inspect.getmembers(sys.modules[__name__])` returns them: sorted by name.
Only function members matter to the scans; imported modules and classes
carry no `__is_tool__` and are omitted, like the unmarked helpers they
behave identically to. -/
def tools_module_members : List (String × PyCallable) :=
  [("_append_datablocks", pyFun "Append the specified NodeGroup and Materials from the asset .blend file.\n\nIf a datablock already exists in the current file, it is *not* duplicated."),
   ("_ensure_node_group_and_deps", pyFun "Ensure the given node group and its dependent materials exist in the current file."),
   ("_scan_required_materials", pyFun "Return material names referenced by the specified node group.\n\nResults are memoised via lru_cache so repeated calls are free."),
   ("execute_code", execute_code),
   ("get_context", get_context),
   ("get_object", get_object),
   ("get_objects", get_objects),
   ("get_prompt", pyFun ""),
   ("import_file", import_file),
   ("modify_with_geometry_nodes", modify_with_geometry_nodes)]

/-- The provider-visible tool declaration built by `_get_tools` (tools.py
lines 490-504). -/
structure ToolDecl where
  type : String
  name : String
  description : String
  parameters : Json

/-- `_get_tools` (tools.py lines 490-504): scan the module members for the
`__is_tool__` attribute and declare each hit. -/
def _get_tools : List ToolDecl :=
  (tools_module_members.filter (fun m => m.2.is_tool)).map
    (fun m => { type := "function", name := m.1, description := m.2.doc,
                parameters := m.2.parameters })

/-- `tool_functions` (tools.py lines 508-512): the dispatch table, built
at module load by the same `__is_tool__` scan over the same members. -/
def tool_functions : List (String × PyCallable) :=
  tools_module_members.filter (fun m => m.2.is_tool)

/-! ## Concrete example inputs and spec-side comparison definitions -/

/-- A concrete tool call delivered split into two fragments (the second
fragment omits `index` and `type`, exercising the dict defaults). -/
def splitFragments : List ToolCallDelta :=
  [{ index := some 0, id := some "call_1", type := some "function",
     function := some { name := some "get_ob", arguments := some "\x7b" } },
   { index := none, id := some "call_1", type := none,
     function := some { name := some "jects", arguments := some "\x7d" } }]

/-- The same tool call delivered whole in a single fragment. -/
def wholeFragment : List ToolCallDelta :=
  [{ index := some 0, id := some "call_1", type := some "function",
     function := some { name := some "get_objects", arguments := some "\x7b\x7d" } }]

/-- The outcome of dispatching one accumulated tool call: `none` when the
name is unknown or the invocation raises, otherwise the tool's result. -/
def runOne (decode : String → Option (List (String × Json)))
    (tool_functions : String → Option ToolFun) (tc : ToolCallEntry) : Option Json :=
  match tool_functions tc.name with
  | none => none
  | some f =>
    match f (parseArguments decode tc.arguments) with
    | .ok r => some r
    | .error _ => none

/-- Modelled from the words of Claim C8, NOT from the source, for the
order comparison: system prompt, language hint, then the context system
message, then the translated history, with the user message appended
last. -/
def claimedFirstRequestMessages (b64 : String → String) (encode : Json → String)
    (model : String) (user_message : GradioInputMessage)
    (history : List GradioHistoryMessage) (lang : String) (ctx : Json) :
    List Message :=
  ([{ role := "system", content := some (.str SYSTEM_PROMPT) },
    { role := "system", content := some (.str ("Language: " ++ lang)) },
    contextMessage encode ctx]
    ++ history.map (translateHistoryMessage b64))
    ++ [{ role := "user", content := some (.parts (userContentParts b64 user_message)) }]

/-! ## Theorems -/

theorem join_append (l1 l2 : List String) :
    String.join (l1 ++ l2) = String.join l1 ++ String.join l2 := by
  apply String.ext
  simp

theorem updEntry_initEntry (d : ToolCallDelta) :
    updEntry (initEntry d) d = specEntry [d] := by
  cases hid : d.id <;> cases hty : d.type <;> cases hfn : d.function <;>
    simp [updEntry, initEntry, specEntry, lastProvided, fragName, fragArguments,
      hid, hty, hfn, String.join]

theorem specEntry_concat (ds : List ToolCallDelta) (d : ToolCallDelta) :
    specEntry (ds ++ [d]) = updEntry (specEntry ds) d := by
  cases hid : d.id <;> cases hty : d.type <;> cases hfn : d.function <;>
    simp [updEntry, specEntry, lastProvided, fragName, fragArguments, hid, hty, hfn,
      List.filterMap_append, List.getLast?_append, join_append, String.join]

theorem lookupEntry_setEntry_self (s : List (Nat × ToolCallEntry)) (i : Nat)
    (e : ToolCallEntry) (h : (lookupEntry s i).isSome) :
    lookupEntry (setEntry s i e) i = some e := by
  induction s with
  | nil => simp [lookupEntry] at h
  | cons p rest ih =>
      obtain ⟨k, v⟩ := p
      by_cases hk : k = i
      · simp [lookupEntry, setEntry, hk]
      · simp [lookupEntry, setEntry, hk] at h ⊢
        exact ih h

theorem lookupEntry_setEntry_ne (s : List (Nat × ToolCallEntry)) (k i : Nat)
    (e : ToolCallEntry) (h : k ≠ i) :
    lookupEntry (setEntry s k e) i = lookupEntry s i := by
  induction s with
  | nil => simp [setEntry]
  | cons p rest ih =>
      obtain ⟨k', v⟩ := p
      by_cases hk : k' = k
      · subst hk
        simp [lookupEntry, setEntry, h]
      · simp [lookupEntry, setEntry, hk]
        split <;> simp [ih]

theorem lookupEntry_append_single (s : List (Nat × ToolCallEntry)) (k i : Nat)
    (e : ToolCallEntry) :
    lookupEntry (s ++ [(k, e)]) i =
      match lookupEntry s i with
      | some e0 => some e0
      | none => if k = i then some e else none := by
  induction s with
  | nil => simp [lookupEntry]
  | cons p rest ih =>
      obtain ⟨k', v⟩ := p
      by_cases hk : k' = i <;> simp [lookupEntry, hk, ih]

theorem lookupEntry_mergeDelta_ne (acc : List (Nat × ToolCallEntry))
    (d : ToolCallDelta) (i : Nat) (h : deltaIndex d ≠ i) :
    lookupEntry (mergeDelta acc d) i = lookupEntry acc i := by
  unfold mergeDelta
  cases hl : lookupEntry acc (deltaIndex d) with
  | some e => simp [lookupEntry_setEntry_ne acc _ i _ h]
  | none =>
      rw [lookupEntry_append_single]
      cases hli : lookupEntry acc i with
      | some e0 => simp
      | none => simp [h]

theorem lookupEntry_mergeDelta_eq (acc : List (Nat × ToolCallEntry))
    (d : ToolCallDelta) :
    lookupEntry (mergeDelta acc d) (deltaIndex d) =
      some (updEntry ((lookupEntry acc (deltaIndex d)).getD (initEntry d)) d) := by
  unfold mergeDelta
  cases hl : lookupEntry acc (deltaIndex d) with
  | some e =>
      have : (lookupEntry acc (deltaIndex d)).isSome := by simp [hl]
      simp [lookupEntry_setEntry_self acc _ _ this]
  | none =>
      rw [lookupEntry_append_single]
      simp [hl]

/-- The per-index characterization of the accumulator: the entry stored at
index `i` is exactly `specEntry` of the subsequence of deltas whose index
is `i`. -/
theorem lookupEntry_accumulate (ds : List ToolCallDelta) (i : Nat) :
    lookupEntry (accumulate ds) i =
      if ds.filter (fun d => deltaIndex d == i) = [] then none
      else some (specEntry (ds.filter (fun d => deltaIndex d == i))) := by
  induction ds using List.reverseRecOn with
  | nil => simp [accumulate, lookupEntry]
  | append_singleton ds d ih =>
      have hacc : accumulate (ds ++ [d]) = mergeDelta (accumulate ds) d := by
        simp [accumulate, List.foldl_append]
      have hfil :
          (ds ++ [d]).filter (fun d' => deltaIndex d' == i) =
            ds.filter (fun d' => deltaIndex d' == i)
              ++ [d].filter (fun d' => deltaIndex d' == i) := by
        simp [List.filter_append]
      by_cases hd : deltaIndex d = i
      · subst hd
        rw [hacc, lookupEntry_mergeDelta_eq, ih, hfil]
        by_cases hempty : ds.filter (fun d' => deltaIndex d' == deltaIndex d) = []
        · simp [hempty, updEntry_initEntry]
        · simp only [hempty, if_neg]
          have hne :
              ds.filter (fun d' => deltaIndex d' == deltaIndex d)
                ++ [d].filter (fun d' => deltaIndex d' == deltaIndex d) ≠ [] := by
            simp [hempty]
          simp [hempty, hne, specEntry_concat]
      · have hdb : (deltaIndex d == i) = false := by
          simp [hd]
        rw [hacc, lookupEntry_mergeDelta_ne _ _ _ hd, ih, hfil]
        simp [hdb]

/-- Claim C1: the per-index accumulator of `completion_stream` reconstructs
each tool call so that the final `function.name` and `function.arguments`
equal the concatenation of the corresponding fragments' substrings in
arrival order, while `id` and `type` take the value of the last fragment
that supplied them (this is exactly `specEntry`); consequently the
reconstruction is invariant under how the provider split the strings into
fragments — any two fragmentations with the same `specEntry` (same
concatenations, same last-supplied `id`/`type`) accumulate to the same
entry. -/
theorem c1_accumulator_reconstruction (ds : List ToolCallDelta) (i : Nat)
    (h : ds.filter (fun d => deltaIndex d == i) ≠ []) :
    lookupEntry (accumulate ds) i
        = some (specEntry (ds.filter (fun d => deltaIndex d == i)))
    ∧ ∀ ds2 : List ToolCallDelta,
        ds2.filter (fun d => deltaIndex d == i) ≠ [] →
        specEntry (ds2.filter (fun d => deltaIndex d == i))
          = specEntry (ds.filter (fun d => deltaIndex d == i)) →
        lookupEntry (accumulate ds2) i = lookupEntry (accumulate ds) i := by
  constructor
  · rw [lookupEntry_accumulate, if_neg h]
  · intro ds2 h2 hspec
    rw [lookupEntry_accumulate, if_neg h2, lookupEntry_accumulate, if_neg h, hspec]

/-- Witness for Claim C1: a two-fragment delivery of a `get_objects` call
reconstructs to its `specEntry`, and the whole-string single-fragment
delivery of the same call accumulates to the identical entry. -/
theorem c1_accumulator_reconstruction_witness :
    lookupEntry (accumulate splitFragments) 0
        = some (specEntry (splitFragments.filter (fun d => deltaIndex d == 0)))
    ∧ lookupEntry (accumulate wholeFragment) 0
        = lookupEntry (accumulate splitFragments) 0 :=
  ⟨(c1_accumulator_reconstruction splitFragments 0 (by decide)).1,
   (c1_accumulator_reconstruction splitFragments 0 (by decide)).2
     wholeFragment (by decide) (by decide)⟩

theorem processChunk_fold_no_tools (chunks : List Delta) (st : FirstPassState)
    (h : ∀ c ∈ chunks, c.tool_calls = none) :
    chunks.foldl processChunk st =
      { collected_content :=
          st.collected_content ++ chunks.filterMap (fun c => c.content)
        collected_tool_calls := st.collected_tool_calls
        yielded := st.yielded ++ chunks.filterMap (fun c => c.content) } := by
  induction chunks generalizing st with
  | nil => simp
  | cons c cs ih =>
      have hc : c.tool_calls = none := h c (List.mem_cons_self c cs)
      have hcs : ∀ c' ∈ cs, c'.tool_calls = none :=
        fun c' hc' => h c' (List.mem_cons_of_mem c hc')
      cases hcon : c.content with
      | none =>
          simp [processChunk, hc, hcon, ih _ hcs, List.filterMap_cons]
      | some token =>
          simp [processChunk, hc, hcon, ih _ hcs, List.filterMap_cons]

/-- Claim C2: when every first-stream chunk carries no tool-call delta,
`completion_stream` succeeds yielding exactly the content deltas in
arrival order (so their concatenations agree), and `litellm.acompletion`
is invoked exactly once — no second provider call. -/
theorem c2_content_only_single_call (b64 : String → String)
    (decode : String → Option (List (String × Json))) (encode : Json → String)
    (tfs : String → Option ToolFun) (model : String) (um : GradioInputMessage)
    (history : List GradioHistoryMessage) (lang : String) (ctx : Json)
    (firstChunks secondChunks : List Delta)
    (h : ∀ c ∈ firstChunks, c.tool_calls = none) :
    ∃ r : RunResult,
      completion_stream b64 decode encode tfs model um history lang ctx
          firstChunks secondChunks = .ok r
      ∧ r.yielded = firstChunks.filterMap (fun c => c.content)
      ∧ String.join r.yielded
          = String.join (firstChunks.filterMap (fun c => c.content))
      ∧ r.acompletion_calls = 1 := by
  have hfold := processChunk_fold_no_tools firstChunks ⟨[], [], []⟩ h
  refine ⟨{ yielded := firstChunks.filterMap (fun c => c.content)
            messages :=
              firstRequestMessages b64 encode model um history lang ctx
                ++ [{ role := "assistant"
                      content :=
                        if firstChunks.filterMap (fun c => c.content) = [] then none
                        else some (.str (String.join
                          (firstChunks.filterMap (fun c => c.content)))) }]
            acompletion_calls := 1 }, ?_, rfl, rfl, rfl⟩
  unfold completion_stream
  rw [hfold]
  simp

/-- Witness for Claim C2: the two-chunk "Hi" / " there" stream is yielded
verbatim with a single provider call. -/
theorem c2_content_only_single_call_witness :
    ∃ r : RunResult,
      completion_stream (fun _ => "") (fun _ => none) (fun _ => "")
          (fun _ => none) "gpt-5" { text := "hello", files := [] } [] "en"
          Json.null
          [{ content := some "Hi", tool_calls := none },
           { content := some " there", tool_calls := none }] [] = .ok r
      ∧ r.yielded
          = ([{ content := some "Hi", tool_calls := none },
              { content := some " there", tool_calls := none }] :
              List Delta).filterMap (fun c => c.content)
      ∧ String.join r.yielded
          = String.join (([{ content := some "Hi", tool_calls := none },
              { content := some " there", tool_calls := none }] :
              List Delta).filterMap (fun c => c.content))
      ∧ r.acompletion_calls = 1 :=
  c2_content_only_single_call (fun _ => "") (fun _ => none) (fun _ => "")
    (fun _ => none) "gpt-5" { text := "hello", files := [] } [] "en" Json.null
    [{ content := some "Hi", tool_calls := none },
     { content := some " there", tool_calls := none }] [] (by decide)

/-- Claim C3 (evaluation at the failing input): in the streaming
orchestrator the tool invocation has no surrounding try/except, so when
the first accumulated tool raises `ValueError("boom")` the whole run
aborts with that exception — no error-status ToolResult message is built
and the second accumulated call (`other_tool`) is never executed, contrary
to the claim. -/
theorem c3_tool_exception_aborts_run :
    completion_stream (fun _ => "") (fun _ => none) (fun _ => "")
      (fun n =>
        if n = "boom_tool" then some (fun _ => .error "boom")
        else if n = "other_tool" then some (fun _ => .ok (Json.str "fine"))
        else none)
      "gpt-5" { text := "hi", files := [] } [] "en" Json.null
      [{ content := none,
         tool_calls := some
           [{ index := some 0, id := some "call_1", type := some "function",
              function := some { name := some "boom_tool", arguments := some "" } },
            { index := some 1, id := some "call_2", type := some "function",
              function := some { name := some "other_tool", arguments := some "" } }] }]
      [{ content := some "never streamed", tool_calls := none }]
      = .error "boom" := rfl

/-- Contrast for Claim C3: the extension's non-streaming `completion` DOES
catch the exception, converting it into a `ToolResult{status: error,
payload: str(exception)}`, and its loop is total, so the remaining calls
of the batch still run. -/
theorem ext_tool_result_catches (decode : String → Option (List (String × Json)))
    (tfs : String → Option ToolFun) (tc : ToolCallEntry) (f : ToolFun) (e : String)
    (hf : tfs tc.name = some f)
    (he : f (parseArguments decode tc.arguments) = .error e) :
    ext_tool_result decode tfs tc
      = Json.obj [("status", .str "error"), ("payload", .str e)] := by
  simp [ext_tool_result, hf, he]

/-- Claim C4: when every accumulated tool call resolves and returns
normally, the tool loop appends exactly one tool-role message per call, in
the accumulation order, each carrying that call's `tool_call_id` and
function name. -/
theorem c4_tool_result_message_order (decode : String → Option (List (String × Json)))
    (encode : Json → String) (tfs : String → Option ToolFun)
    (msgs : List Message) (tcs : List ToolCallEntry)
    (h : ∀ tc ∈ tcs, (runOne decode tfs tc).isSome) :
    execToolCalls decode encode tfs msgs tcs =
      .ok (msgs ++ tcs.map (fun tc =>
        toolMessage encode tc ((runOne decode tfs tc).getD Json.null))) := by
  induction tcs generalizing msgs with
  | nil => simp [execToolCalls]
  | cons tc rest ih =>
      have htc := h tc (List.mem_cons_self tc rest)
      have hrest : ∀ tc' ∈ rest, (runOne decode tfs tc').isSome :=
        fun tc' h' => h tc' (List.mem_cons_of_mem tc h')
      cases hf : tfs tc.name with
      | none => simp [runOne, hf] at htc
      | some f =>
          cases hr : f (parseArguments decode tc.arguments) with
          | error e => simp [runOne, hf, hr] at htc
          | ok r =>
              simp [execToolCalls, hf, hr, ih _ hrest, runOne]

/-- Witness for Claim C4: a two-call batch over a two-tool registry
produces the two tool-role messages in accumulation order. -/
theorem c4_tool_result_message_order_witness :
    execToolCalls (fun _ => some []) (fun _ => "dumped")
      (fun n =>
        if n = "get_objects" then some (fun _ => .ok (Json.arr []))
        else if n = "get_context" then some (fun _ => .ok (Json.obj []))
        else none)
      []
      [{ id := "call_1", type := "function", name := "get_objects", arguments := "\x7b\x7d" },
       { id := "call_2", type := "function", name := "get_context", arguments := "\x7b\x7d" }] =
      .ok ([{ id := "call_1", type := "function", name := "get_objects", arguments := "\x7b\x7d" },
            { id := "call_2", type := "function", name := "get_context", arguments := "\x7b\x7d" }].map
        (fun tc => toolMessage (fun _ => "dumped") tc
          ((runOne (fun _ => some [])
            (fun n =>
              if n = "get_objects" then some (fun _ => .ok (Json.arr []))
              else if n = "get_context" then some (fun _ => .ok (Json.obj []))
              else none) tc).getD Json.null))) := by
  have h := c4_tool_result_message_order (fun _ => some []) (fun _ => "dumped")
    (fun n =>
      if n = "get_objects" then some (fun _ => .ok (Json.arr []))
      else if n = "get_context" then some (fun _ => .ok (Json.obj []))
      else none)
    []
    [{ id := "call_1", type := "function", name := "get_objects", arguments := "\x7b\x7d" },
     { id := "call_2", type := "function", name := "get_context", arguments := "\x7b\x7d" }]
    (by intro tc htc; fin_cases htc <;> rfl)
  simpa using h

/-- Claim C5: a tool call whose function name is not in the registry is
skipped — no tool-role message is appended for it — and the loop continues
with the remaining calls of the batch unchanged; the run is not aborted. -/
theorem c5_unknown_tool_skipped (decode : String → Option (List (String × Json)))
    (encode : Json → String) (tfs : String → Option ToolFun)
    (msgs : List Message) (tc : ToolCallEntry) (rest : List ToolCallEntry)
    (h : tfs tc.name = none) :
    execToolCalls decode encode tfs msgs (tc :: rest)
      = execToolCalls decode encode tfs msgs rest := by
  simp [execToolCalls, h]

/-- Witness for Claim C5: an unknown name followed by a known tool — the
unknown call leaves no message while the known one still runs. -/
theorem c5_unknown_tool_skipped_witness :
    execToolCalls (fun _ => some []) (fun _ => "dumped")
      (fun n => if n = "get_objects" then some (fun _ => .ok (Json.arr [])) else none)
      []
      [{ id := "call_0", type := "function", name := "__not_registered__", arguments := "" },
       { id := "call_1", type := "function", name := "get_objects", arguments := "\x7b\x7d" }]
      = execToolCalls (fun _ => some []) (fun _ => "dumped")
          (fun n => if n = "get_objects" then some (fun _ => .ok (Json.arr [])) else none)
          []
          [{ id := "call_1", type := "function", name := "get_objects", arguments := "\x7b\x7d" }] :=
  c5_unknown_tool_skipped (fun _ => some []) (fun _ => "dumped")
    (fun n => if n = "get_objects" then some (fun _ => .ok (Json.arr [])) else none)
    []
    { id := "call_0", type := "function", name := "__not_registered__", arguments := "" }
    [{ id := "call_1", type := "function", name := "get_objects", arguments := "\x7b\x7d" }]
    rfl

/-- Claim C6: when a tool call's `function.arguments` is the empty string
or fails to decode as JSON, the single decode attempt falls back to the
empty mapping, the resolved tool is still invoked with no keyword
arguments, and the run proceeds exactly as a normal invocation on `{}`
would. -/
theorem c6_malformed_arguments_fallback (decode : String → Option (List (String × Json)))
    (encode : Json → String) (tfs : String → Option ToolFun)
    (msgs : List Message) (tc : ToolCallEntry) (rest : List ToolCallEntry)
    (f : ToolFun) (hf : tfs tc.name = some f)
    (hdec : decode "\x7b\x7d" = some [])
    (hbad : tc.arguments = "" ∨ decode tc.arguments = none) :
    parseArguments decode tc.arguments = []
    ∧ execToolCalls decode encode tfs msgs (tc :: rest) =
        match f [] with
        | .ok r => execToolCalls decode encode tfs (msgs ++ [toolMessage encode tc r]) rest
        | .error e => .error e := by
  have hargs : parseArguments decode tc.arguments = [] := by
    by_cases he : tc.arguments = ""
    · simp [parseArguments, he, hdec]
    · rcases hbad with hb | hb
      · exact absurd hb he
      · simp [parseArguments, he, hb]
  refine ⟨hargs, ?_⟩
  simp only [execToolCalls, hf, hargs]
  cases f [] <;> rfl

/-- Witness for Claim C6: the truncated arguments string `"{"` fails to
decode, the tool runs on the empty mapping, and its result message is
appended as usual. -/
theorem c6_malformed_arguments_fallback_witness :
    parseArguments
        (fun s => if s = "\x7b\x7d" then some [] else none) "\x7b" = []
    ∧ execToolCalls (fun s => if s = "\x7b\x7d" then some [] else none)
        (fun _ => "dumped")
        (fun n => if n = "get_objects" then some (fun _ => .ok (Json.arr [])) else none)
        []
        [{ id := "call_1", type := "function", name := "get_objects", arguments := "\x7b" }] =
        match (fun (_ : List (String × Json)) => (.ok (Json.arr []) : Except String Json)) [] with
        | .ok r =>
            execToolCalls (fun s => if s = "\x7b\x7d" then some [] else none)
              (fun _ => "dumped")
              (fun n => if n = "get_objects" then some (fun _ => .ok (Json.arr [])) else none)
              ([] ++ [toolMessage (fun _ => "dumped")
                { id := "call_1", type := "function", name := "get_objects", arguments := "\x7b" } r])
              []
        | .error e => .error e :=
  c6_malformed_arguments_fallback
    (fun s => if s = "\x7b\x7d" then some [] else none) (fun _ => "dumped")
    (fun n => if n = "get_objects" then some (fun _ => .ok (Json.arr [])) else none)
    []
    { id := "call_1", type := "function", name := "get_objects", arguments := "\x7b" }
    [] (fun _ => .ok (Json.arr [])) rfl rfl (Or.inr rfl)

/-- Claim C7 counterexample: a queued callable that raises is NOT caught
inside the queued closure — the exception escapes the closure and
propagates out of `execute_queued_functions`, i.e. into the host's
cooperative tick, and is never delivered through the future. -/
theorem c7_counterexample :
    queuedClosure { func := fun _ => .error "boom", args := [] } = .error "boom"
    ∧ execute_queued_functions [{ func := fun _ => .error "boom", args := [] }]
        = .error "boom" :=
  ⟨rfl, rfl⟩

/-- Claim C7 amended: the queued closure
`lambda: conc_future.set_result(function(*args, **kwargs))` resolves the
future only when the callable returns normally; an exception raised by the
callable is not caught inside the closure and propagates out of the host
tick (`Except.map` keeps `Except.error` intact), leaving the future
pending — utils.py itself documents that callables executed on the main
thread must catch their own exceptions. -/
theorem c7_amended_exception_escapes_tick
    (f : List (String × Json) → Except String Json)
    (args : List (String × Json)) :
    queuedClosure { func := f, args := args } = (f args).map FutureState.resolved
    ∧ execute_queued_functions [{ func := f, args := args }]
        = (f args).map (fun v => [FutureState.resolved v]) := by
  cases h : f args <;>
    simp [queuedClosure, execute_queued_functions, h, Except.map]

theorem execToolCalls_append_only (decode : String → Option (List (String × Json)))
    (encode : Json → String) (tfs : String → Option ToolFun)
    (tcs : List ToolCallEntry) :
    ∀ msgs out, execToolCalls decode encode tfs msgs tcs = .ok out →
      ∃ suffix, out = msgs ++ suffix := by
  induction tcs with
  | nil =>
      intro msgs out h
      simp [execToolCalls] at h
      exact ⟨[], by simp [h]⟩
  | cons tc rest ih =>
      intro msgs out h
      cases hf : tfs tc.name with
      | none =>
          simp only [execToolCalls, hf] at h
          exact ih msgs out h
      | some f =>
          cases hr : f (parseArguments decode tc.arguments) with
          | error e =>
              simp only [execToolCalls, hf, hr] at h
              exact Except.noConfusion h
          | ok r =>
              simp only [execToolCalls, hf, hr] at h
              obtain ⟨s, hs⟩ := ih _ _ h
              exact ⟨toolMessage encode tc r :: s, by simpa using hs⟩

/-- Claim C8 counterexample: at a concrete turn with one history message,
the message list actually sent to the first provider call differs from the
order the claim asserts — in the built list the context system message is
the LAST element (after the user message), not the third. -/
theorem c8_counterexample :
    (firstRequestMessages (fun _ => "") (fun _ => "CTX") "gpt-5"
        { text := "hello", files := [] }
        [{ role := "assistant", content := .str "earlier" }] "en" Json.null).map
          (fun m => m.role)
      = ["system", "system", "assistant", "user", "system"]
    ∧ (claimedFirstRequestMessages (fun _ => "") (fun _ => "CTX") "gpt-5"
        { text := "hello", files := [] }
        [{ role := "assistant", content := .str "earlier" }] "en" Json.null).map
          (fun m => m.role)
      = ["system", "system", "system", "assistant", "user"]
    ∧ firstRequestMessages (fun _ => "") (fun _ => "CTX") "gpt-5"
        { text := "hello", files := [] }
        [{ role := "assistant", content := .str "earlier" }] "en" Json.null
      ≠ claimedFirstRequestMessages (fun _ => "") (fun _ => "CTX") "gpt-5"
        { text := "hello", files := [] }
        [{ role := "assistant", content := .str "earlier" }] "en" Json.null
    ∧ (firstRequestMessages (fun _ => "") (fun _ => "CTX") "gpt-5"
        { text := "hello", files := [] }
        [{ role := "assistant", content := .str "earlier" }] "en" Json.null).getLast?
      = some (contextMessage (fun _ => "CTX") Json.null) := by
  refine ⟨rfl, rfl, fun heq => ?_, rfl⟩
  exact absurd (congrArg (List.map (fun m => m.role)) heq) (by decide)

/-- Claim C8 amended: the first-call request list is ordered as fixed
system prompt, language-hint system message, translated history, the new
user message (structured content), and then the context system message
(host state fetched via a Host Action Function) appended LAST; every
successful run's final message list extends exactly this prefix. -/
theorem c8_first_request_order (b64 : String → String)
    (decode : String → Option (List (String × Json))) (encode : Json → String)
    (tfs : String → Option ToolFun) (model : String) (um : GradioInputMessage)
    (history : List GradioHistoryMessage) (lang : String) (ctx : Json)
    (firstChunks secondChunks : List Delta) (r : RunResult)
    (h : completion_stream b64 decode encode tfs model um history lang ctx
      firstChunks secondChunks = .ok r) :
    firstRequestMessages b64 encode model um history lang ctx =
      ([{ role := "system", content := some (.str SYSTEM_PROMPT) },
        { role := "system", content := some (.str ("Language: " ++ lang)) }]
        ++ history.map (translateHistoryMessage b64))
        ++ [{ role := "user", content := some (.parts (userContentParts b64 um)) },
            contextMessage encode ctx]
    ∧ ∃ tail, r.messages
        = firstRequestMessages b64 encode model um history lang ctx ++ tail := by
  constructor
  · simp [firstRequestMessages, _build_messages]
  · unfold completion_stream at h
    set st := firstChunks.foldl processChunk ⟨[], [], []⟩ with hst
    by_cases hempty : st.collected_tool_calls = []
    · rw [if_pos hempty] at h
      cases h
      exact ⟨_, rfl⟩
    · rw [if_neg hempty] at h
      simp only [] at h
      split at h
      · exact Except.noConfusion h
      · rename_i messages2 hexec
        cases h
        obtain ⟨s, hs⟩ := execToolCalls_append_only decode encode tfs _ _ _ hexec
        exact ⟨_, by rw [hs, List.append_assoc]⟩

/-- Witness for Claim C8 at a concrete no-tool run. -/
theorem c8_first_request_order_witness :
    firstRequestMessages (fun _ => "") (fun _ => "CTX") "gpt-5"
        { text := "hello", files := [] }
        [{ role := "assistant", content := .str "earlier" }] "en" Json.null =
      ([{ role := "system", content := some (.str SYSTEM_PROMPT) },
        { role := "system", content := some (.str ("Language: " ++ "en")) }]
        ++ ([{ role := "assistant", content := .str "earlier" }] :
            List GradioHistoryMessage).map (translateHistoryMessage (fun _ => "")))
        ++ [{ role := "user",
              content := some (.parts (userContentParts (fun _ => "")
                { text := "hello", files := [] })) },
            contextMessage (fun _ => "CTX") Json.null]
    ∧ ∃ tail,
        (RunResult.mk []
          (firstRequestMessages (fun _ => "") (fun _ => "CTX") "gpt-5"
            { text := "hello", files := [] }
            [{ role := "assistant", content := .str "earlier" }] "en" Json.null
            ++ [{ role := "assistant", content := none }]) 1).messages
          = firstRequestMessages (fun _ => "") (fun _ => "CTX") "gpt-5"
              { text := "hello", files := [] }
              [{ role := "assistant", content := .str "earlier" }] "en" Json.null
            ++ tail :=
  c8_first_request_order (fun _ => "") (fun _ => none) (fun _ => "CTX")
    (fun _ => none) "gpt-5" { text := "hello", files := [] }
    [{ role := "assistant", content := .str "earlier" }] "en" Json.null [] [] _ rfl

/-- Claim C9 counterexample: for the raw value `"ab"` (length ≤ 3,
`_masked` returns the string itself), every printed representation —
`str`, `repr`, and the default format — EQUALS the raw value, refuting
"masked and never equal the raw value v" as a statement about every
string. -/
theorem c9_counterexample :
    ApiKey.str { value := "ab" } = ApiKey.reveal { value := "ab" }
    ∧ ApiKey.repr { value := "ab" } = "ab"
    ∧ ApiKey.format { value := "ab" } "" = "ab" := by
  refine ⟨?_, ?_, ?_⟩ <;> rfl

/-- Claim C9 amended: `reveal` (and the explicit `"raw"` format) returns
exactly the raw value, and `str`, `repr` and every non-`"raw"` format
return the masked form; the masked form differs from the raw value
whenever the value is longer than 3 characters and its tail is not
already all mask characters — but for values of length at most 3 (and
star-padded longer values) the masked form IS the raw value. -/
theorem c9_apikey_masking (v : String) :
    ApiKey.reveal { value := v } = v
    ∧ ApiKey.str { value := v } = ApiKey.masked { value := v }
    ∧ ApiKey.repr { value := v } = ApiKey.masked { value := v }
    ∧ (∀ format_spec : String, format_spec ≠ "raw" →
        ApiKey.format { value := v } format_spec = ApiKey.masked { value := v })
    ∧ ApiKey.format { value := v } "raw" = v
    ∧ (_VISIBLE_CHARS_HEAD < v.length →
        v.data.drop _VISIBLE_CHARS_HEAD
          ≠ List.replicate (v.length - _VISIBLE_CHARS_HEAD) _MASK_CHAR →
        ApiKey.str { value := v } ≠ v) := by
  refine ⟨rfl, rfl, rfl, ?_, ?_, ?_⟩
  · intro format_spec hspec
    simp [ApiKey.format, hspec]
  · simp [ApiKey.format, ApiKey.reveal]
  · intro hlen hne heq
    have hmask : ApiKey.str { value := v }
        = String.mk (v.data.take _VISIBLE_CHARS_HEAD
            ++ List.replicate (v.length - _VISIBLE_CHARS_HEAD) _MASK_CHAR) := by
      simp [ApiKey.str, ApiKey.masked, Nat.not_le.mpr hlen]
    rw [hmask] at heq
    have hdat : v.data.take _VISIBLE_CHARS_HEAD
        ++ List.replicate (v.length - _VISIBLE_CHARS_HEAD) _MASK_CHAR = v.data :=
      congrArg String.data heq
    have hlen3 : (v.data.take _VISIBLE_CHARS_HEAD).length = _VISIBLE_CHARS_HEAD := by
      rw [List.length_take]
      exact Nat.min_eq_left (le_of_lt hlen)
    apply hne
    have h2 := List.drop_left (List.take _VISIBLE_CHARS_HEAD v.data)
      (List.replicate (v.length - _VISIBLE_CHARS_HEAD) _MASK_CHAR)
    rw [hlen3] at h2
    rw [← hdat]
    exact h2

/-- Witness for Claim C9: for the key `"sk-abcd"`, the printed form is not
the raw value while the default format still masks. -/
theorem c9_apikey_masking_witness :
    ApiKey.str { value := "sk-abcd" } ≠ "sk-abcd"
    ∧ ApiKey.format { value := "sk-abcd" } "" = ApiKey.masked { value := "sk-abcd" } :=
  ⟨(c9_apikey_masking "sk-abcd").2.2.2.2.2 (by decide) (by decide),
   (c9_apikey_masking "sk-abcd").2.2.2.1 "" (by decide)⟩

/-- Claim C10: the tool names declared to the provider by `_get_tools` are
exactly the keys of the dispatch table `tool_functions` — both are
produced at import time by the same `__is_tool__` scan over the same
module members (the `mainthreadify` wrapper preserves the marker via
`functools.wraps`) — so every declared name resolves to a callable. -/
theorem c10_tools_match_dispatch_table :
    _get_tools.map (fun t => t.name) = tool_functions.map Prod.fst
    ∧ ∀ t ∈ _get_tools, (List.lookup t.name tool_functions).isSome := by
  constructor
  · rfl
  · decide
